import Mathlib

/-!
Shallow embedding of `src/nba_total_calc.py`, an NBA live-total calculator:
clock conversion, projection engine, and hedge equalization, together with
theorems checking the natural-language specification against this embedding.

Python floats are modelled as `Rat` (exact arithmetic).  Because the kernel
cannot evaluate the standard `Rat` arithmetic operations (they are marked
irreducible upstream), the embedding computes with the equivalent helpers
`radd`, `rsub`, `rmul`, `rdiv`, `pyMin`, `pyMax`, each proved equal to the
corresponding Mathlib operation (`radd_eq`, ...), and writes rational
constants with `mkRat` (for example `mkRat 35 100` for the literal `0.35`).

Python exceptions are modelled by an explicit `Except` error type, with
`ValueError` carrying its message and `ZeroDivisionError` (raised by `/` on
a zero denominator) kept distinct.  String handling is done on character
lists so that every function evaluates inside the kernel.
-/

namespace NbaCalc

/-- Errors raised by the program: Python `ValueError` with its message, and
Python `ZeroDivisionError`. -/
inductive Err where
  | valueError (msg : String)
  | zeroDivisionError
  deriving DecidableEq, Repr

deriving instance DecidableEq for Except

/-- Kernel-computable rational addition; equal to `a + b` by `radd_eq`. -/
def radd (a b : Rat) : Rat :=
  Rat.divInt (a.num * (b.den : Int) + b.num * (a.den : Int)) ((a.den : Int) * (b.den : Int))

/-- Kernel-computable rational subtraction; equal to `a - b` by `rsub_eq`. -/
def rsub (a b : Rat) : Rat :=
  Rat.divInt (a.num * (b.den : Int) - b.num * (a.den : Int)) ((a.den : Int) * (b.den : Int))

/-- Kernel-computable rational multiplication; equal to `a * b` by `rmul_eq`. -/
def rmul (a b : Rat) : Rat :=
  Rat.divInt (a.num * b.num) ((a.den : Int) * (b.den : Int))

/-- Kernel-computable rational division; equal to `a / b` by `rdiv_eq`. -/
def rdiv (a b : Rat) : Rat :=
  Rat.divInt (a.num * (b.den : Int)) ((a.den : Int) * b.num)

/-- Python `min(a, b)` (returns `a` on ties); equal to `min a b` by `pyMin_eq`. -/
def pyMin (a b : Rat) : Rat := if b < a then b else a

/-- Python `max(a, b)` (returns `a` on ties); equal to `max a b` by `pyMax_eq`. -/
def pyMax (a b : Rat) : Rat := if a < b then b else a

theorem radd_eq (a b : Rat) : radd a b = a + b := by
  have ha : ((a.den : Int) : Rat) ≠ 0 := by exact_mod_cast a.den_nz
  have hb : ((b.den : Int) : Rat) ≠ 0 := by exact_mod_cast b.den_nz
  rw [radd, Rat.divInt_eq_div]
  conv_rhs => rw [← Rat.num_div_den a, ← Rat.num_div_den b]
  push_cast
  field_simp

theorem rsub_eq (a b : Rat) : rsub a b = a - b := by
  have ha : ((a.den : Int) : Rat) ≠ 0 := by exact_mod_cast a.den_nz
  have hb : ((b.den : Int) : Rat) ≠ 0 := by exact_mod_cast b.den_nz
  rw [rsub, Rat.divInt_eq_div]
  conv_rhs => rw [← Rat.num_div_den a, ← Rat.num_div_den b]
  push_cast
  field_simp
  ring

theorem rmul_eq (a b : Rat) : rmul a b = a * b := by
  have ha : ((a.den : Int) : Rat) ≠ 0 := by exact_mod_cast a.den_nz
  have hb : ((b.den : Int) : Rat) ≠ 0 := by exact_mod_cast b.den_nz
  rw [rmul, Rat.divInt_eq_div]
  conv_rhs => rw [← Rat.num_div_den a, ← Rat.num_div_den b]
  push_cast
  field_simp

theorem rdiv_eq (a b : Rat) : rdiv a b = a / b := by
  rcases eq_or_ne b 0 with rfl | hb
  · simp [rdiv]
  · have ha : ((a.den : Int) : Rat) ≠ 0 := by exact_mod_cast a.den_nz
    have hbd : ((b.den : Int) : Rat) ≠ 0 := by exact_mod_cast b.den_nz
    have hbn : ((b.num : Int) : Rat) ≠ 0 := by
      exact_mod_cast Rat.num_ne_zero.mpr hb
    rw [rdiv, Rat.divInt_eq_div]
    conv_rhs => rw [← Rat.num_div_den a, ← Rat.num_div_den b]
    push_cast
    field_simp

theorem pyMin_eq (a b : Rat) : pyMin a b = min a b := by
  rw [pyMin, min_def]
  rcases lt_trichotomy a b with h | h | h
  · rw [if_neg (asymm h), if_pos h.le]
  · simp [h]
  · rw [if_pos h, if_neg (not_le.mpr h)]

theorem pyMax_eq (a b : Rat) : pyMax a b = max a b := by
  rw [pyMax, max_def]
  rcases lt_trichotomy a b with h | h | h
  · rw [if_pos h, if_pos h.le]
  · simp [h]
  · rw [if_neg (asymm h), if_neg (not_le.mpr h)]

/-- Prefix test on character lists. -/
def listPre : List Char → List Char → Bool
  | [], _ => true
  | _ :: _, [] => false
  | a :: as, b :: bs => a == b && listPre as bs

/-- Substring occurrence test on character lists. -/
def listSub (needle : List Char) : List Char → Bool
  | [] => listPre needle []
  | h :: t => listPre needle (h :: t) || listSub needle t

/-- Python `needle in hay` substring containment on strings. -/
def strContains (hay needle : String) : Bool := listSub needle.data hay.data

/-- Test whether `p` starts the string `s`. -/
def strStarts (s p : String) : Bool := listPre p.data s.data

/-- Python `s.upper()` (ASCII case mapping, the only case the program needs). -/
def pyUpper (s : String) : String := String.mk (s.data.map Char.toUpper)

/-- Python `s.strip()`: drop whitespace from both ends. -/
def pyStrip (s : String) : String :=
  String.mk (((s.data.dropWhile Char.isWhitespace).reverse.dropWhile Char.isWhitespace).reverse)

/-- The side normalization `my_side.upper().strip()` performed at the top of
`hedge_equalize` in `src/nba_total_calc.py`. -/
def normSide (s : String) : String := pyStrip (pyUpper s)

/-- Floor of a rational, computed with integer floor-division on the
numerator and denominator. -/
def ratFloor (q : Rat) : Int := Int.fdiv q.num q.den

/-- Round a rational to the nearest integer, ties to even, matching the
rounding of CPython float formatting. -/
def roundHalfEven (q : Rat) : Int :=
  let f := ratFloor q
  let r := rsub q (f : Rat)
  if r < mkRat 1 2 then f
  else if mkRat 1 2 < r then f + 1
  else if Int.emod f 2 = 0 then f else f + 1

/-- Left-pad a decimal digit string with zeros up to width `d`. -/
def padZeros (d : Nat) (s : String) : String :=
  String.mk (List.replicate (d - s.length) '0') ++ s

/-- Fixed-point rendering of a rational with `d` digits after the point,
modelling the Python format specifier `f"{x:.df}"` used for flag payloads
and the middle-range note. -/
def fmtFixed (x : Rat) (d : Nat) : String :=
  let n := roundHalfEven (rmul x ((10 ^ d : Nat) : Rat))
  let a := n.natAbs
  let sign := if n < 0 then "-" else ""
  if d = 0 then sign ++ Nat.repr a
  else sign ++ (Nat.repr (a / 10 ^ d) ++ ("." ++ padZeros d (Nat.repr (a % 10 ^ d))))

/-- `parse_mmss` from `src/nba_total_calc.py`.  Splitting the raw clock
string on the colon and integer-parsing the two parts are abstracted away: a
well-formed clock string is represented by the pair of parsed integers
`(mm, ss)`.  The numeric validation mirrors the source
(`if mm < 0 or ss < 0 or ss >= 60: raise ValueError(...)`), and the value
returned is `mm + ss / 60.0`. -/
def parse_mmss (mm ss : Int) : Except Err Rat :=
  if mm < 0 ∨ ss < 0 ∨ 60 ≤ ss then .error (.valueError "Invalid mm:ss.")
  else .ok (radd (mm : Rat) (rdiv (ss : Rat) 60))

/-- `clamp` from `src/nba_total_calc.py`: `max(lo, min(hi, x))`. -/
def clamp (x lo hi : Rat) : Rat := pyMax lo (pyMin hi x)

/-- `auto_alpha` from `src/nba_total_calc.py`:
`clamp(0.35 + 0.012 * elapsed_min, 0.35, 0.90)`. -/
def auto_alpha (elapsed_min : Rat) : Rat :=
  clamp (radd (mkRat 35 100) (rmul (mkRat 12 1000) elapsed_min)) (mkRat 35 100) (mkRat 90 100)

/-- `dec_from_american` from `src/nba_total_calc.py`: American odds to
decimal odds, rejecting zero odds. -/
def dec_from_american (a : Rat) : Except Err Rat :=
  if a = 0 then .error (.valueError "American odds cannot be 0.")
  else if a < 0 then .ok (radd 1 (rdiv 100 |a|))
  else .ok (radd 1 (rdiv a 100))

/-- The clock-to-elapsed-minutes conversion of the specification's
ClockConverter: `parse_mmss` followed by
`elapsed = (quarter - 1) * 12.0 + (12.0 - tleft)` and the bounds check
`if elapsed <= 0 or elapsed > 48: raise ValueError(...)`, exactly as in
lines 78-81 of `src/nba_total_calc.py`. -/
def parseClock (quarter mm ss : Int) : Except Err Rat :=
  match parse_mmss mm ss with
  | .error e => .error e
  | .ok tleft =>
    let elapsed := radd (rmul (rsub (quarter : Rat) 1) 12) (rsub 12 tleft)
    if elapsed ≤ 0 ∨ 48 < elapsed then
      .error (.valueError "Elapsed time out of bounds. Check quarter/time left.")
    else .ok elapsed

/-- `CalcResult` from `src/nba_total_calc.py`.  The field the source calls
`lean` is named `lean_label` here; the clock string is kept as the parsed
pair `(mm, ss)`; the timestamp is an opaque string supplied by the caller
(the source reads the wall clock, an effect outside the pure core). -/
structure CalcResult where
  timestamp : String
  quarter : Int
  time_left : Int × Int
  total_points : Rat
  live_total : Rat
  pregame_total : Rat
  elapsed_min : Rat
  alpha_used : Rat
  pace_ppm : Rat
  pace_proj : Rat
  blended_proj : Rat
  edge_vs_live : Rat
  needed_ppm_for_live : Rat
  lean_label : String
  flags : String
  deriving DecidableEq, Repr

/-- The bonus flag branch of `compute_projection` (lines 108-111 of
`src/nba_total_calc.py`): early-bonus risk when in the first three quarters
with more than six minutes left, otherwise the plain bonus flag. -/
def bonusFlags (quarter : Int) (tleft : Rat) (bonus : Bool) : List String :=
  if bonus ∧ quarter ≤ 3 ∧ 6 < tleft then ["EARLY_BONUS_HIGH_RISK"]
  else if bonus then ["BONUS/WHISTLES_ON"]
  else []

/-- The free-throw-parade flag (lines 112-113). -/
def ftParadeFlags (ft_parade : Bool) : List String :=
  if ft_parade then ["FT_PARADE"] else []

/-- The free-throw-rate classification (lines 115-122), with the formatted
per-minute rate as payload. -/
def ftaFlags (fta_total : Option Rat) (elapsed : Rat) : List String :=
  match fta_total with
  | none => []
  | some fta =>
    let r := rdiv fta elapsed
    if mkRat 110 100 ≤ r then ["HIGH_FT_RATE(" ++ (fmtFixed r 2 ++ "/min)")]
    else if mkRat 85 100 ≤ r then ["ELEVATED_FT_RATE(" ++ (fmtFixed r 2 ++ "/min)")]
    else ["FT_RATE_OK(" ++ (fmtFixed r 2 ++ "/min)")]

/-- The three-point classification (lines 124-130), with the formatted
percentage as payload. -/
def threePtFlags (three_pt_pct : Option Rat) : List String :=
  match three_pt_pct with
  | none => []
  | some p =>
    if mkRat 42 100 ≤ p then ["3P_HOT(" ++ (fmtFixed (rmul p 100) 1 ++ "%)")]
    else if p ≤ mkRat 31 100 then ["3P_COLD(" ++ (fmtFixed (rmul p 100) 1 ++ "%)")]
    else ["3P_NORMAL(" ++ (fmtFixed (rmul p 100) 1 ++ "%)")]

/-- The overtime flag (lines 132-133), with probability and expected-point
payload. -/
def otFlags (ot_on : Bool) (ot_prob_pct ot_expected_points : Rat) : List String :=
  if ot_on then
    ["OT_ON(" ++ (fmtFixed ot_prob_pct 1
      ++ ("% -> +" ++ (fmtFixed (rmul (rdiv ot_prob_pct 100) ot_expected_points) 1 ++ " pts)")))]
  else []

/-- The flag-building block of `compute_projection` (lines 107-133 of
`src/nba_total_calc.py`): the five detections appended in source order. -/
def flags_list (quarter : Int) (tleft : Rat) (bonus ft_parade : Bool)
    (fta_total : Option Rat) (elapsed : Rat) (three_pt_pct : Option Rat)
    (ot_on : Bool) (ot_prob_pct ot_expected_points : Rat) : List String :=
  bonusFlags quarter tleft bonus
  ++ (ftParadeFlags ft_parade
  ++ (ftaFlags fta_total elapsed
  ++ (threePtFlags three_pt_pct
  ++ otFlags ot_on ot_prob_pct ot_expected_points)))

/-- The successful branch of `compute_projection` (lines 83-160 of
`src/nba_total_calc.py`), building the `CalcResult` from the parsed clock
value `tleft` and the in-bounds `elapsed`. -/
def projection_result (quarter : Int) (time_left : Int × Int) (tleft elapsed : Rat)
    (total_points live_total pregame_total : Rat) (alpha : Option Rat)
    (edge_threshold : Rat) (bonus ft_parade : Bool) (bonus_boost_ppm : Rat)
    (fta_total three_pt_pct : Option Rat) (ot_on : Bool)
    (ot_prob_pct ot_expected_points : Rat) (ts : String) : CalcResult :=
  let alpha_used := match alpha with
    | none => auto_alpha elapsed
    | some a => clamp a (mkRat 5 100) (mkRat 95 100)
  let pace_ppm := rdiv total_points elapsed
  let pace_proj := rmul pace_ppm 48
  let baseline_rate := rdiv pregame_total 48
  let boost := radd (if bonus then bonus_boost_ppm else 0) (if ft_parade then mkRat 35 100 else 0)
  let blended_rate := radd (rmul alpha_used (radd pace_ppm boost)) (rmul (rsub 1 alpha_used) baseline_rate)
  let bp := radd total_points (rmul blended_rate (rsub 48 elapsed))
  let blended_proj := if ot_on then radd bp (rmul (rdiv ot_prob_pct 100) ot_expected_points) else bp
  let needed_ppm := rdiv (rsub live_total total_points) (rsub 48 elapsed)
  let edge := rsub blended_proj live_total
  let fl := flags_list quarter tleft bonus ft_parade fta_total elapsed three_pt_pct ot_on ot_prob_pct ot_expected_points
  let lean_label :=
    if edge_threshold ≤ edge then "LEAN: OVER"
    else if edge ≤ -edge_threshold then "LEAN: UNDER"
    else "PASS / WAIT"
  ⟨ts, quarter, time_left, total_points, live_total, pregame_total, elapsed, alpha_used,
    pace_ppm, pace_proj, blended_proj, edge, needed_ppm, lean_label,
    if fl.isEmpty then "NONE" else String.intercalate ";" fl⟩

/-- `compute_projection` from `src/nba_total_calc.py`.  The clock string is
the already-parsed pair `time_left`; `ts` stands in for `datetime.now()`.
The second error branch models Python raising `ZeroDivisionError` at
`needed_ppm = (live_total - total_points) / (48.0 - elapsed)` (line 103)
when the guarded bounds check `elapsed <= 0 or elapsed > 48` has passed but
the remaining-time denominator `48.0 - elapsed` is zero (only possible at
`elapsed = 48`); it is hoisted before the pure result construction. -/
def compute_projection (quarter : Int) (time_left : Int × Int)
    (total_points live_total pregame_total : Rat) (alpha : Option Rat)
    (edge_threshold : Rat) (bonus ft_parade : Bool) (bonus_boost_ppm : Rat)
    (fta_total three_pt_pct : Option Rat) (ot_on : Bool)
    (ot_prob_pct ot_expected_points : Rat) (ts : String) : Except Err CalcResult :=
  match parse_mmss time_left.1 time_left.2 with
  | .error e => .error e
  | .ok tleft =>
    let elapsed := radd (rmul (rsub (quarter : Rat) 1) 12) (rsub 12 tleft)
    if elapsed ≤ 0 ∨ 48 < elapsed then
      .error (.valueError "Elapsed time out of bounds. Check quarter/time left.")
    else if rsub 48 elapsed = 0 then
      .error .zeroDivisionError
    else
      .ok (projection_result quarter time_left tleft elapsed total_points live_total
        pregame_total alpha edge_threshold bonus ft_parade bonus_boost_ppm
        fta_total three_pt_pct ot_on ot_prob_pct ot_expected_points ts)

/-- `HedgeResult` from `src/nba_total_calc.py`. -/
structure HedgeResult where
  suggestion : String
  equalized_hedge_stake : Rat
  middle_note : String
  worst_case_profit : Rat
  best_case_profit : Rat
  deriving DecidableEq, Repr

/-- The middle-range message built by `hedge_equalize`
(`f"Middle range (both win): {lo:.1f} to {hi:.1f} (excluding pushes)."`). -/
def middleMsg (lo hi : Rat) : String :=
  "Middle range (both win): " ++ (fmtFixed lo 1 ++ (" to " ++ (fmtFixed hi 1 ++ " (excluding pushes).")))

/-- The successful branch of `hedge_equalize` (lines 185-231 of
`src/nba_total_calc.py`): `side` is the normalized side and `dec0`, `dech`
the decimal odds already converted. -/
def hedge_result (side : String) (my_line my_stake dec0 hedge_line dech live_total : Rat)
    (flags : List String) : HedgeResult :=
  let hedge_stake := rdiv (rmul my_stake dec0) dech
  let clv := if side = "UNDER" then rsub my_line live_total else rsub live_total my_line
  let bad := (flags.filter (fun f =>
    strContains f "HIGH_RISK" || strContains f "FT_PARADE" || strContains f "HIGH_FT_RATE")).length
  let warn := (flags.filter (fun f =>
    strContains f "BONUS" || strContains f "ELEVATED_FT_RATE" || strContains f "3P_" || strContains f "OT_ON")).length
  let suggestion :=
    if 6 ≤ clv ∧ (1 ≤ bad ∨ 2 ≤ warn) then "Consider SMALL hedge"
    else if 6 ≤ clv then "Hold (good CLV)"
    else if 3 ≤ clv ∧ 1 ≤ bad then "Watch closely (whistle risk)"
    else "No hedge signal"
  let middle_note :=
    if side = "UNDER" then
      if hedge_line < my_line then middleMsg hedge_line my_line
      else "No classic middle (hedge line not below your under line)."
    else
      if my_line < hedge_line then middleMsg my_line hedge_line
      else "No classic middle (hedge line not above your over line)."
  let win0 := rmul my_stake (rsub dec0 1)
  let lose0 := -my_stake
  let winh := rmul hedge_stake (rsub dech 1)
  let loseh := -hedge_stake
  ⟨suggestion, hedge_stake, middle_note, pyMin (radd win0 loseh) (radd lose0 winh), radd win0 winh⟩

/-- `hedge_equalize` from `src/nba_total_calc.py`: normalize the side,
validate it, convert both American odds (first the caller's, then the
hedge's, as the source does), then build the result. -/
def hedge_equalize (my_side : String)
    (my_line my_stake my_odds_american hedge_line hedge_odds_american live_total : Rat)
    (flags : List String) : Except Err HedgeResult :=
  let side := normSide my_side
  if ¬(side = "UNDER" ∨ side = "OVER") then
    .error (.valueError "my_side must be UNDER or OVER.")
  else
    match dec_from_american my_odds_american with
    | .error e => .error e
    | .ok dec0 =>
      match dec_from_american hedge_odds_american with
      | .error e => .error e
      | .ok dech => .ok (hedge_result side my_line my_stake dec0 hedge_line dech live_total flags)

/-- Bridge between `mkRat` constants and division of cast literals. -/
theorem mkRat_as_div (n : Int) (d : Nat) : (mkRat n d : Rat) = (n : Rat) / (d : Rat) := by
  rw [Rat.mkRat_eq_divInt, Rat.divInt_eq_div]
  norm_num

/-- Unfolding `String.append` to list append on the character data. -/
theorem strData_append (a b : String) : (a ++ b).data = a.data ++ b.data := by
  cases a
  cases b
  rfl

/-- Head of an appended string whose first part is nonempty. -/
theorem strHead_append (a x : String) (c : Char) (h : a.data.head? = some c) :
    (a ++ x).data.head? = some c := by
  rw [strData_append]
  cases had : a.data with
  | nil => rw [had] at h; cases h
  | cons d ds => rw [had] at h; simpa using h

/-- Two strings with different first characters differ. -/
theorem strNe_of_head (s t : String) (c d : Char) (hs : s.data.head? = some c)
    (ht : t.data.head? = some d) (hcd : c ≠ d) : s ≠ t := by
  intro h
  rw [h, ht] at hs
  exact hcd (Option.some.inj hs).symm

theorem listPre_self_append : (l m : List Char) → listPre l (l ++ m) = true
  | [], _ => rfl
  | c :: cs, m => by simp [listPre, listPre_self_append cs m]

/-- A string starts with itself, whatever follows. -/
theorem strStarts_append_self (a x : String) : strStarts (a ++ x) a = true := by
  rw [strStarts, strData_append]
  exact listPre_self_append a.data x.data

/-- A string whose first character differs cannot be a starting segment. -/
theorem strStarts_false_of_head (s p : String) (c d : Char) (hs : s.data.head? = some c)
    (hp : p.data.head? = some d) (hcd : c ≠ d) : strStarts s p = false := by
  rw [strStarts]
  cases hsd : s.data with
  | nil => rw [hsd] at hs; cases hs
  | cons a as =>
    cases hpd : p.data with
    | nil => rw [hpd] at hp; cases hp
    | cons b bs =>
      rw [hsd] at hs
      rw [hpd] at hp
      have ha : a = c := Option.some.inj hs
      have hb : b = d := Option.some.inj hp
      subst ha
      subst hb
      simp [listPre, hcd.symm]

section SpecSide

/-!
Specification-side definitions, written from the words of the claims (not
from the source), used to compare the program's behaviour against the
specified one.
-/

/-- Detection-sequence category of a flag string, from the spec's flag
taxonomy: bonus flags, free-throw parade, free-throw-rate flags, three-point
flags, overtime flag. -/
def flagRank (f : String) : Nat :=
  if f = "EARLY_BONUS_HIGH_RISK" ∨ f = "BONUS/WHISTLES_ON" then 0
  else if f = "FT_PARADE" then 1
  else if strStarts f "HIGH_FT_RATE(" ∨ strStarts f "ELEVATED_FT_RATE(" ∨ strStarts f "FT_RATE_OK(" then 2
  else if strStarts f "3P_" then 3
  else if strStarts f "OT_ON(" then 4
  else 5

/-- A flag belonging to the free-throw-rate category. -/
def ftCategory (f : String) : Bool :=
  strStarts f "HIGH_FT_RATE(" || strStarts f "ELEVATED_FT_RATE(" || strStarts f "FT_RATE_OK("

/-- Spec-level hedge suggestions. -/
inductive Suggestion where
  | SMALL_HEDGE
  | HOLD
  | WATCH
  | NO_SIGNAL
  deriving DecidableEq, Repr

/-- Closing-line value from the spec: `myLine - liveMarketTotal` for UNDER,
`liveMarketTotal - myLine` otherwise. -/
def specClv (side : String) (myLine liveTotal : Rat) : Rat :=
  if side = "UNDER" then myLine - liveTotal else liveTotal - myLine

/-- The spec's `badCount`: flags containing HIGH_RISK, FT_PARADE or
HIGH_FT_RATE. -/
def specBadCount (flags : List String) : Nat :=
  (flags.filter (fun f =>
    strContains f "HIGH_RISK" || strContains f "FT_PARADE" || strContains f "HIGH_FT_RATE")).length

/-- The spec's `warnCount`: flags containing BONUS, ELEVATED_FT_RATE, 3P_ or
OT_ON. -/
def specWarnCount (flags : List String) : Nat :=
  (flags.filter (fun f =>
    strContains f "BONUS" || strContains f "ELEVATED_FT_RATE" || strContains f "3P_" || strContains f "OT_ON")).length

/-- The spec's first-match suggestion table. -/
def specSuggestion (clv : Rat) (badCount warnCount : Nat) : Suggestion :=
  if 6 ≤ clv ∧ (1 ≤ badCount ∨ 2 ≤ warnCount) then .SMALL_HEDGE
  else if 6 ≤ clv then .HOLD
  else if 3 ≤ clv ∧ 1 ≤ badCount then .WATCH
  else .NO_SIGNAL

/-- The concrete message the program prints for each spec-level suggestion. -/
def suggestionLabel : Suggestion → String
  | .SMALL_HEDGE => "Consider SMALL hedge"
  | .HOLD => "Hold (good CLV)"
  | .WATCH => "Watch closely (whistle risk)"
  | .NO_SIGNAL => "No hedge signal"

end SpecSide

/-- C1: the claim says a zero remaining-time denominator (elapsed exactly 48,
for example quarter 4 at 0:00) is guarded and turned into the same RangeError
as the bounds check, never reaching an unguarded division.  The code's bounds
check `elapsed <= 0 or elapsed > 48` admits `elapsed = 48`, and the division
`(live_total - total_points) / (48.0 - elapsed)` then raises a bare
`ZeroDivisionError`: at quarter 4, clock 0:00, the program fails with the
division-by-zero error, not with the `ValueError` of the bounds check. -/
theorem C1_div_by_zero_unguarded :
    compute_projection 4 (0, 0) 200 224 (mkRat 457 2) none 4 false false (mkRat 1 4)
        none none false 6 10 "ts"
      = Except.error Err.zeroDivisionError
    ∧ Except.error Err.zeroDivisionError
      ≠ (Except.error (Err.valueError "Elapsed time out of bounds. Check quarter/time left.")
          : Except Err CalcResult) := by
  exact ⟨by decide, by decide⟩

/-- C2: the end-to-end scenario quarter 3, clock 6:00, 150 points, live total
224, pregame total 228.5, automatic alpha, threshold 4: elapsed 30, alpha
0.71, pace 5.0, baseline rate 228.5/48 (about 4.76), blended rate
0.71*5 + 0.29*(228.5/48) (about 4.93), blended projection about 238.7, edge
about 14.7, lean OVER. -/
theorem C2_end_to_end_scenario :
    compute_projection 3 (6, 0) 150 224 (mkRat 457 2) none 4 false false (mkRat 1 4)
        none none false 6 10 "ts"
      = Except.ok ⟨"ts", 3, (6, 0), 150, 224, mkRat 457 2, 30, mkRat 71 100, 5, 240,
          mkRat 381999 1600, mkRat 23599 1600, mkRat 37 9, "LEAN: OVER", "NONE"⟩
    ∧ (mkRat 457 2 : Rat) = 228.5
    ∧ (mkRat 71 100 : Rat) = clamp (0.35 + 0.012 * 30) 0.35 0.90
    ∧ (mkRat 381999 1600 : Rat) = 150 + (0.71 * 5 + (1 - 0.71) * (228.5 / 48)) * 18
    ∧ (mkRat 23599 1600 : Rat) = (150 + (0.71 * 5 + (1 - 0.71) * (228.5 / 48)) * 18) - 224
    ∧ 4.76 ≤ (228.5 / 48 : Rat) ∧ (228.5 / 48 : Rat) < 4.77
    ∧ 4.93 ≤ (0.71 * 5 + (1 - 0.71) * (228.5 / 48) : Rat)
    ∧ (0.71 * 5 + (1 - 0.71) * (228.5 / 48) : Rat) < 4.94
    ∧ 238.7 ≤ (mkRat 381999 1600 : Rat) ∧ (mkRat 381999 1600 : Rat) < 238.8
    ∧ 14.7 ≤ (mkRat 23599 1600 : Rat) ∧ (mkRat 23599 1600 : Rat) < 14.8 := by
  refine ⟨by decide, by norm_num [mkRat_as_div], ?_, by norm_num [mkRat_as_div],
    by norm_num [mkRat_as_div], by norm_num, by norm_num, by norm_num, by norm_num,
    by norm_num [mkRat_as_div], by norm_num [mkRat_as_div], by norm_num [mkRat_as_div],
    by norm_num [mkRat_as_div]⟩
  rw [clamp, pyMax_eq, pyMin_eq]
  rw [show (0.35 + 0.012 * 30 : Rat) = 0.71 by norm_num]
  rw [min_eq_right (by norm_num : (0.71 : Rat) ≤ 0.90),
    max_eq_right (by norm_num : (0.35 : Rat) ≤ 0.71)]
  norm_num [mkRat_as_div]

/-- Standard-operation form of `auto_alpha`. -/
theorem auto_alpha_std (e : Rat) : auto_alpha e = clamp (0.35 + 0.012 * e) 0.35 0.90 := by
  rw [auto_alpha, radd_eq, rmul_eq]
  norm_num [mkRat_as_div]

/-- Inversion for a successful `compute_projection` run: the clock parsed,
the bounds and zero-denominator guards passed, and the result is
`projection_result` on the parsed values. -/
theorem compute_projection_ok (quarter : Int) (tl : Int × Int)
    (tp lt pg : Rat) (alpha : Option Rat) (et : Rat) (b fp : Bool) (bb : Rat)
    (fta tpp : Option Rat) (ot : Bool) (op oe : Rat) (ts : String) (r : CalcResult)
    (h : compute_projection quarter tl tp lt pg alpha et b fp bb fta tpp ot op oe ts
      = Except.ok r) :
    ∃ tleft, parse_mmss tl.1 tl.2 = Except.ok tleft ∧
      r = projection_result quarter tl tleft
            (radd (rmul (rsub (quarter : Rat) 1) 12) (rsub 12 tleft))
            tp lt pg alpha et b fp bb fta tpp ot op oe ts := by
  rcases hp : parse_mmss tl.1 tl.2 with e | tleft
  · rw [compute_projection, hp] at h
    cases h
  · rw [compute_projection, hp] at h
    simp only at h
    split_ifs at h with h1 h2
    exact ⟨tleft, rfl, (Except.ok.inj h).symm⟩

/-- C3: for quarter at least 1 and a well-formed clock of `mm` minutes and
`ss` seconds (both nonnegative, seconds below 60), the clock converter
returns `(quarter - 1) * 12 + (12 - mm - ss/60)` elapsed minutes and fails
with the RangeError exactly when that value is nonpositive or above 48; in
particular quarter 1 at 12:00 is rejected and quarter 4 at 0:00 gives 48. -/
theorem C3_parseClock_formula (quarter mm ss : Int) (hq : 1 ≤ quarter)
    (hm : 0 ≤ mm) (hs : 0 ≤ ss) (h60 : ss < 60) :
    parseClock quarter mm ss
      = (if ((quarter : Rat) - 1) * 12 + (12 - ((mm : Rat) + (ss : Rat) / 60)) ≤ 0
            ∨ 48 < ((quarter : Rat) - 1) * 12 + (12 - ((mm : Rat) + (ss : Rat) / 60))
         then Except.error (Err.valueError "Elapsed time out of bounds. Check quarter/time left.")
         else Except.ok (((quarter : Rat) - 1) * 12 + (12 - ((mm : Rat) + (ss : Rat) / 60))))
    ∧ parseClock 1 12 0
      = Except.error (Err.valueError "Elapsed time out of bounds. Check quarter/time left.")
    ∧ parseClock 4 0 0 = Except.ok 48 := by
  refine ⟨?_, by decide, by decide⟩
  rw [parseClock, parse_mmss, if_neg (by push_neg; exact ⟨hm, hs, h60⟩)]
  simp only [radd_eq, rsub_eq, rmul_eq, rdiv_eq]

/-- C3 witness: quarter 2 at 6:00 gives 18 elapsed minutes. -/
theorem C3_witness : parseClock 2 6 0 = Except.ok 18 := by
  have h := (C3_parseClock_formula 2 6 0 (by decide) (by decide) (by decide) (by decide)).1
  rw [h, if_neg (by norm_num)]
  exact congrArg Except.ok (by norm_num)

/-- C4: a supplied alpha is always clamped into [0.05, 0.95]; an absent
alpha follows the auto-alpha schedule `clamp(0.35 + 0.012 * elapsed, 0.35,
0.90)`, which is non-decreasing in elapsed time and always within
[0.35, 0.90]. -/
theorem C4_alpha_schedule :
    (∀ (quarter : Int) (tl : Int × Int) (tp lt pg a et : Rat) (b fp : Bool) (bb : Rat)
        (fta tpp : Option Rat) (ot : Bool) (op oe : Rat) (ts : String) (r : CalcResult),
        compute_projection quarter tl tp lt pg (some a) et b fp bb fta tpp ot op oe ts
          = Except.ok r →
        r.alpha_used = clamp a 0.05 0.95)
    ∧ (∀ (quarter : Int) (tl : Int × Int) (tp lt pg et : Rat) (b fp : Bool) (bb : Rat)
        (fta tpp : Option Rat) (ot : Bool) (op oe : Rat) (ts : String) (r : CalcResult),
        compute_projection quarter tl tp lt pg none et b fp bb fta tpp ot op oe ts
          = Except.ok r →
        r.alpha_used = clamp (0.35 + 0.012 * r.elapsed_min) 0.35 0.90)
    ∧ (∀ e1 e2 : Rat, e1 ≤ e2 → auto_alpha e1 ≤ auto_alpha e2)
    ∧ (∀ e : Rat, 0.35 ≤ auto_alpha e ∧ auto_alpha e ≤ 0.90) := by
  refine ⟨?_, ?_, ?_, ?_⟩
  · intro quarter tl tp lt pg a et b fp bb fta tpp ot op oe ts r h
    obtain ⟨tleft, hp, hr⟩ := compute_projection_ok _ _ _ _ _ _ _ _ _ _ _ _ _ _ _ _ _ h
    subst hr
    simp only [projection_result]
    norm_num [mkRat_as_div]
  · intro quarter tl tp lt pg et b fp bb fta tpp ot op oe ts r h
    obtain ⟨tleft, hp, hr⟩ := compute_projection_ok _ _ _ _ _ _ _ _ _ _ _ _ _ _ _ _ _ h
    subst hr
    simp only [projection_result]
    exact auto_alpha_std _
  · intro e1 e2 h
    rw [auto_alpha_std, auto_alpha_std, clamp, clamp, pyMax_eq, pyMax_eq, pyMin_eq, pyMin_eq]
    have hle : (0.35 + 0.012 * e1 : Rat) ≤ 0.35 + 0.012 * e2 := by nlinarith
    exact max_le_max le_rfl (min_le_min le_rfl hle)
  · intro e
    rw [auto_alpha_std, clamp, pyMax_eq, pyMin_eq]
    exact ⟨le_max_left _ _, max_le (by norm_num) (min_le_left _ _)⟩

/-- C4 witness: concrete runs exercising both alpha branches, the
monotonicity and the bounds. -/
theorem C4_witness :
    (⟨"ts", 2, (0, 0), 120, 224, 240, 24, mkRat 95 100, 5, 240, 240, 16,
        mkRat 13 3, "LEAN: OVER", "NONE"⟩ : CalcResult).alpha_used = clamp 2 0.05 0.95
    ∧ (⟨"ts", 2, (0, 0), 120, 224, 240, 24, mkRat 319 500, 5, 240, 240, 16,
        mkRat 13 3, "LEAN: OVER", "NONE"⟩ : CalcResult).alpha_used
      = clamp (0.35 + 0.012 * (⟨"ts", 2, (0, 0), 120, 224, 240, 24, mkRat 319 500, 5, 240,
          240, 16, mkRat 13 3, "LEAN: OVER", "NONE"⟩ : CalcResult).elapsed_min) 0.35 0.90
    ∧ auto_alpha 10 ≤ auto_alpha 20
    ∧ 0.35 ≤ auto_alpha 10 ∧ auto_alpha 10 ≤ 0.90 := by
  refine ⟨C4_alpha_schedule.1 2 (0, 0) 120 224 240 2 4 false false (mkRat 1 4)
      none none false 6 10 "ts" _ (by decide),
    C4_alpha_schedule.2.1 2 (0, 0) 120 224 240 4 false false (mkRat 1 4)
      none none false 6 10 "ts" _ (by decide),
    C4_alpha_schedule.2.2.1 10 20 (by norm_num),
    C4_alpha_schedule.2.2.2 10⟩

/-- Successful odds conversion for nonzero odds, with the value returned. -/
theorem dec_from_american_ok (a : Rat) (ha : a ≠ 0) :
    dec_from_american a
      = Except.ok (if a < 0 then radd 1 (rdiv 100 |a|) else radd 1 (rdiv a 100)) := by
  rw [dec_from_american, if_neg ha]
  split_ifs <;> rfl

/-- The only error `dec_from_american` produces is the zero-odds
ValidationError, and only at zero. -/
theorem dec_from_american_error (a : Rat) (e : Err)
    (h : dec_from_american a = Except.error e) :
    e = Err.valueError "American odds cannot be 0." ∧ a = 0 := by
  by_cases h0 : a = 0
  · rw [dec_from_american, if_pos h0] at h
    exact ⟨(Except.error.inj h).symm, h0⟩
  · rw [dec_from_american, if_neg h0] at h
    by_cases hneg : a < 0
    · rw [if_pos hneg] at h
      cases h
    · rw [if_neg hneg] at h
      cases h

/-- Converted decimal odds always exceed 1. -/
theorem dec_from_american_gt_one (a d : Rat) (h : dec_from_american a = Except.ok d) :
    1 < d := by
  by_cases h0 : a = 0
  · rw [dec_from_american, if_pos h0] at h
    cases h
  · rw [dec_from_american, if_neg h0] at h
    by_cases hneg : a < 0
    · rw [if_pos hneg] at h
      obtain rfl : radd 1 (rdiv 100 |a|) = d := Except.ok.inj h
      rw [radd_eq, rdiv_eq]
      have habs : (0 : Rat) < |a| := abs_pos.mpr h0
      have : (0 : Rat) < 100 / |a| := by positivity
      linarith
    · rw [if_neg hneg] at h
      obtain rfl : radd 1 (rdiv a 100) = d := Except.ok.inj h
      rw [radd_eq, rdiv_eq]
      have hpos : (0 : Rat) < a := lt_of_le_of_ne (not_lt.mp hneg) (Ne.symm h0)
      have : (0 : Rat) < a / 100 := by positivity
      linarith

/-- Inversion for a successful `hedge_equalize` run. -/
theorem hedge_equalize_ok (s : String) (ml stake o0 hl oh lt : Rat) (fl : List String)
    (r : HedgeResult)
    (h : hedge_equalize s ml stake o0 hl oh lt fl = Except.ok r) :
    ∃ d0 dh, dec_from_american o0 = Except.ok d0 ∧ dec_from_american oh = Except.ok dh ∧
      (normSide s = "UNDER" ∨ normSide s = "OVER") ∧
      r = hedge_result (normSide s) ml stake d0 hl dh lt fl := by
  by_cases hside : normSide s = "UNDER" ∨ normSide s = "OVER"
  · rcases h0 : dec_from_american o0 with e | d0
    · rw [hedge_equalize] at h
      simp only [if_neg (not_not_intro hside), h0] at h
      cases h
    · rcases hh : dec_from_american oh with e | dh
      · rw [hedge_equalize] at h
        simp only [if_neg (not_not_intro hside), h0, hh] at h
        cases h
      · rw [hedge_equalize] at h
        simp only [if_neg (not_not_intro hside), h0, hh] at h
        exact ⟨d0, dh, rfl, rfl, hside, (Except.ok.inj h).symm⟩
  · rw [hedge_equalize] at h
    simp only [if_pos hside] at h
    cases h

/-- A result of the `valueError` kind (the program's ValidationError and the
other `ValueError`s share this constructor). -/
def isValueError {α : Type} : Except Err α → Bool
  | .error (.valueError _) => true
  | _ => false

/-- C5 counterexample: the side string "under" is neither the string "OVER"
nor the string "UNDER", yet `hedge_equalize` succeeds on it (the side is
upper-cased and stripped before validation), so the claim that any side
argument other than OVER or UNDER always raises a ValidationError fails. -/
theorem C5_counterexample :
    ¬"under" = "OVER" ∧ ¬"under" = "UNDER"
    ∧ Except.isOk (hedge_equalize "under" (mkRat 457 2) 100 (-110) (mkRat 451 2) (-110) 224 [])
      = true := by
  exact ⟨by decide, by decide, by decide⟩

/-- C5 amended: `hedge_equalize` always raises a ValidationError when either
American odds value is 0, and always raises the side ValidationError when
the whitespace-stripped upper-cased side is other than OVER or UNDER; on
such failures it produces no result. -/
theorem C5_amended_validation (s : String) (ml stake o0 hl oh lt : Rat) (fl : List String) :
    ((o0 = 0 ∨ oh = 0) →
      isValueError (hedge_equalize s ml stake o0 hl oh lt fl) = true)
    ∧ (¬(normSide s = "UNDER" ∨ normSide s = "OVER") →
      hedge_equalize s ml stake o0 hl oh lt fl
        = Except.error (Err.valueError "my_side must be UNDER or OVER.")) := by
  constructor
  · intro hz
    by_cases hside : normSide s = "UNDER" ∨ normSide s = "OVER"
    · rcases h0 : dec_from_american o0 with e | d0
      · obtain ⟨rfl, -⟩ := dec_from_american_error _ _ h0
        rw [hedge_equalize]
        simp only [if_neg (not_not_intro hside), h0]
        rfl
      · rcases hh : dec_from_american oh with e | dh
        · obtain ⟨rfl, -⟩ := dec_from_american_error _ _ hh
          rw [hedge_equalize]
          simp only [if_neg (not_not_intro hside), h0, hh]
          rfl
        · rcases hz with rfl | rfl
          · rw [dec_from_american] at h0
            simp at h0
          · rw [dec_from_american] at hh
            simp at hh
    · rw [hedge_equalize]
      simp only [if_pos hside]
      rfl
  · intro hside
    rw [hedge_equalize]
    simp only [if_pos hside]

/-- C5 witness: zero odds on either side yield a ValidationError, as does an
unrecognized side. -/
theorem C5_witness :
    isValueError (hedge_equalize "UNDER" (mkRat 457 2) 100 0 (mkRat 451 2) (-110) 224 []) = true
    ∧ hedge_equalize "TIE" (mkRat 457 2) 100 (-110) (mkRat 451 2) (-110) 224 []
      = Except.error (Err.valueError "my_side must be UNDER or OVER.") :=
  ⟨(C5_amended_validation "UNDER" (mkRat 457 2) 100 0 (mkRat 451 2) (-110) 224 []).1
      (Or.inl rfl),
    (C5_amended_validation "TIE" (mkRat 457 2) 100 (-110) (mkRat 451 2) (-110) 224 []).2
      (by decide)⟩

/-- C9: the equalized stake `myStake * dec0 / dech` makes the two single-win
outcomes equal under exact arithmetic, so the worst case is a minimum over
two equal values and equals either argument. -/
theorem C9_equalized_outcomes (s : String) (ml stake o0 hl oh lt : Rat) (fl : List String)
    (r : HedgeResult) (d0 dh : Rat)
    (h : hedge_equalize s ml stake o0 hl oh lt fl = Except.ok r)
    (h0 : dec_from_american o0 = Except.ok d0)
    (hh : dec_from_american oh = Except.ok dh) :
    r.equalized_hedge_stake = stake * d0 / dh
    ∧ stake * (d0 - 1) - r.equalized_hedge_stake
      = r.equalized_hedge_stake * (dh - 1) - stake
    ∧ r.worst_case_profit
      = min (stake * (d0 - 1) - r.equalized_hedge_stake)
          (r.equalized_hedge_stake * (dh - 1) - stake)
    ∧ r.worst_case_profit = stake * (d0 - 1) - r.equalized_hedge_stake := by
  obtain ⟨d0x, dhx, h0x, hhx, hside, rfl⟩ := hedge_equalize_ok _ _ _ _ _ _ _ _ _ h
  rw [h0] at h0x
  rw [hh] at hhx
  obtain rfl : d0 = d0x := Except.ok.inj h0x
  obtain rfl : dh = dhx := Except.ok.inj hhx
  have hdh : (1 : Rat) < dh := dec_from_american_gt_one _ _ hh
  have hdh0 : dh ≠ 0 := by linarith
  have hstake : (hedge_result (normSide s) ml stake d0 hl dh lt fl).equalized_hedge_stake
      = stake * d0 / dh := by
    simp only [hedge_result]
    rw [rdiv_eq, rmul_eq]
  have hkey : stake * (d0 - 1) - stake * d0 / dh
      = stake * d0 / dh * (dh - 1) - stake := by
    field_simp
    ring
  refine ⟨hstake, ?_, ?_, ?_⟩
  · rw [hstake]
    exact hkey
  · rw [hstake]
    simp only [hedge_result]
    rw [pyMin_eq, radd_eq, radd_eq, rmul_eq, rmul_eq, rsub_eq, rsub_eq, rdiv_eq, rmul_eq]
    congr 1 <;> ring
  · rw [hstake]
    simp only [hedge_result]
    rw [pyMin_eq, radd_eq, radd_eq, rmul_eq, rmul_eq, rsub_eq, rsub_eq, rdiv_eq, rmul_eq]
    rw [show stake * (d0 - 1) + -(stake * d0 / dh) = stake * (d0 - 1) - stake * d0 / dh by ring]
    rw [show -stake + stake * d0 / dh * (dh - 1) = stake * d0 / dh * (dh - 1) - stake by ring]
    rw [← hkey, min_self]

/-- C9 witness: a concrete equalized hedge at odds -110 on both sides. -/
theorem C9_witness :
    (⟨"Hold (good CLV)", 100, "Middle range (both win): 230.0 to 232.0 (excluding pushes).",
        mkRat (-100) 11, mkRat 2000 11⟩ : HedgeResult).equalized_hedge_stake
      = 100 * mkRat 21 11 / mkRat 21 11
    ∧ 100 * (mkRat 21 11 - 1)
        - (⟨"Hold (good CLV)", 100,
            "Middle range (both win): 230.0 to 232.0 (excluding pushes).",
            mkRat (-100) 11, mkRat 2000 11⟩ : HedgeResult).equalized_hedge_stake
      = (⟨"Hold (good CLV)", 100,
            "Middle range (both win): 230.0 to 232.0 (excluding pushes).",
            mkRat (-100) 11, mkRat 2000 11⟩ : HedgeResult).equalized_hedge_stake
          * (mkRat 21 11 - 1) - 100
    ∧ (⟨"Hold (good CLV)", 100,
          "Middle range (both win): 230.0 to 232.0 (excluding pushes).",
          mkRat (-100) 11, mkRat 2000 11⟩ : HedgeResult).worst_case_profit
      = min (100 * (mkRat 21 11 - 1)
            - (⟨"Hold (good CLV)", 100,
                "Middle range (both win): 230.0 to 232.0 (excluding pushes).",
                mkRat (-100) 11, mkRat 2000 11⟩ : HedgeResult).equalized_hedge_stake)
          ((⟨"Hold (good CLV)", 100,
              "Middle range (both win): 230.0 to 232.0 (excluding pushes).",
              mkRat (-100) 11, mkRat 2000 11⟩ : HedgeResult).equalized_hedge_stake
            * (mkRat 21 11 - 1) - 100)
    ∧ (⟨"Hold (good CLV)", 100,
          "Middle range (both win): 230.0 to 232.0 (excluding pushes).",
          mkRat (-100) 11, mkRat 2000 11⟩ : HedgeResult).worst_case_profit
      = 100 * (mkRat 21 11 - 1)
        - (⟨"Hold (good CLV)", 100,
            "Middle range (both win): 230.0 to 232.0 (excluding pushes).",
            mkRat (-100) 11, mkRat 2000 11⟩ : HedgeResult).equalized_hedge_stake :=
  C9_equalized_outcomes "UNDER" 232 100 (-110) 230 (-110) 224 [] _ (mkRat 21 11) (mkRat 21 11)
    (by decide) (by decide) (by decide)

/-- C10: `hedge_equalize` normalizes the side before validating: any string
whose stripped upper-cased form is OVER or UNDER succeeds (given nonzero
odds) and behaves as the normalized side; only strings that do not
normalize to OVER or UNDER raise the side ValidationError. -/
theorem C10_side_normalization (s : String) (ml stake o0 hl oh lt : Rat) (fl : List String)
    (h0 : o0 ≠ 0) (hh : oh ≠ 0) :
    ((normSide s = "UNDER" ∨ normSide s = "OVER") →
      hedge_equalize s ml stake o0 hl oh lt fl
        = hedge_equalize (normSide s) ml stake o0 hl oh lt fl
      ∧ Except.isOk (hedge_equalize s ml stake o0 hl oh lt fl) = true)
    ∧ (¬(normSide s = "UNDER" ∨ normSide s = "OVER") →
      hedge_equalize s ml stake o0 hl oh lt fl
        = Except.error (Err.valueError "my_side must be UNDER or OVER.")) := by
  constructor
  · intro hside
    have hnorm : normSide (normSide s) = normSide s := by
      rcases hside with h | h <;> rw [h] <;> decide
    constructor
    · rw [hedge_equalize, hedge_equalize, hnorm]
    · rw [hedge_equalize]
      simp only [if_neg (not_not_intro hside), dec_from_american_ok o0 h0,
        dec_from_american_ok oh hh]
      rfl
  · intro hside
    rw [hedge_equalize]
    simp only [if_pos hside]

/-- C10 witness: the side string " over " (lower case, padded) succeeds and
equals the run with the normalized side "OVER". -/
theorem C10_witness :
    hedge_equalize " over " 230 100 (-110) 234 120 224 []
      = hedge_equalize (normSide " over ") 230 100 (-110) 234 120 224 []
    ∧ Except.isOk (hedge_equalize " over " 230 100 (-110) 234 120 224 []) = true :=
  (C10_side_normalization " over " 230 100 (-110) 234 120 224 [] (by decide) (by decide)).1
    (by decide)

/-- The middle-range message always begins with the letter M. -/
theorem middleMsg_head (a b : Rat) : (middleMsg a b).data.head? = some 'M' := by
  rw [middleMsg]
  exact strHead_append _ _ _ (by decide)

/-- The middle-range message differs from any string starting with N, in
particular from both no-middle messages. -/
theorem middleMsg_ne_noMiddle (a b : Rat) (t : String) (ht : t.data.head? = some 'N') :
    middleMsg a b ≠ t :=
  strNe_of_head _ _ 'M' 'N' (middleMsg_head a b) ht (by decide)

/-- C6: the hedge suggestion is decided by the spec's first-match table over
the closing-line value, the bad-flag count and the warn-flag count. -/
theorem C6_suggestion_table (s : String) (ml stake o0 hl oh lt : Rat) (fl : List String)
    (r : HedgeResult)
    (h : hedge_equalize s ml stake o0 hl oh lt fl = Except.ok r) :
    r.suggestion
      = suggestionLabel
          (specSuggestion (specClv (normSide s) ml lt) (specBadCount fl) (specWarnCount fl)) := by
  obtain ⟨d0, dh, h0, hh, hside, rfl⟩ := hedge_equalize_ok _ _ _ _ _ _ _ _ _ h
  simp only [hedge_result, specClv, specBadCount, specWarnCount, specSuggestion, rsub_eq]
  split_ifs <;> rfl

/-- C6 witness: UNDER at line 232 against live 224 (clv 8) with an
FT_PARADE flag gives the small-hedge suggestion. -/
theorem C6_witness :
    (⟨"Consider SMALL hedge", 100,
        "Middle range (both win): 230.0 to 232.0 (excluding pushes).",
        mkRat (-100) 11, mkRat 2000 11⟩ : HedgeResult).suggestion
      = suggestionLabel
          (specSuggestion (specClv (normSide "UNDER") 232 224) (specBadCount ["FT_PARADE"])
            (specWarnCount ["FT_PARADE"])) :=
  C6_suggestion_table "UNDER" 232 100 (-110) 230 (-110) 224 ["FT_PARADE"] _ (by decide)

/-- C7: for UNDER a middle covering [hedgeLine, myLine] is reported exactly
when hedgeLine < myLine, for OVER a middle covering [myLine, hedgeLine]
exactly when myLine < hedgeLine, otherwise the no-middle note; concretely,
UNDER with myLine 228.5 and hedgeLine 225.5 reports the middle
[225.5, 228.5] while hedgeLine 230 reports no middle. -/
theorem C7_middle_detection (s : String) (ml stake o0 hl oh lt : Rat) (fl : List String)
    (r : HedgeResult)
    (h : hedge_equalize s ml stake o0 hl oh lt fl = Except.ok r) :
    (normSide s = "UNDER" →
      ((r.middle_note = middleMsg hl ml ↔ hl < ml)
        ∧ (¬hl < ml →
            r.middle_note = "No classic middle (hedge line not below your under line).")))
    ∧ (normSide s = "OVER" →
      ((r.middle_note = middleMsg ml hl ↔ ml < hl)
        ∧ (¬ml < hl →
            r.middle_note = "No classic middle (hedge line not above your over line).")))
    ∧ Except.map HedgeResult.middle_note
        (hedge_equalize "UNDER" (mkRat 457 2) 100 (-110) (mkRat 451 2) (-110) 224 [])
      = Except.ok (middleMsg (mkRat 451 2) (mkRat 457 2))
    ∧ middleMsg (mkRat 451 2) (mkRat 457 2)
      = "Middle range (both win): 225.5 to 228.5 (excluding pushes)."
    ∧ (mkRat 451 2 : Rat) = 225.5 ∧ (mkRat 457 2 : Rat) = 228.5
    ∧ Except.map HedgeResult.middle_note
        (hedge_equalize "UNDER" (mkRat 457 2) 100 (-110) 230 (-110) 224 [])
      = Except.ok "No classic middle (hedge line not below your under line)." := by
  obtain ⟨d0, dh, h0, hh, hside, rfl⟩ := hedge_equalize_ok _ _ _ _ _ _ _ _ _ h
  refine ⟨?_, ?_, by decide, by decide, by norm_num [mkRat_as_div],
    by norm_num [mkRat_as_div], by decide⟩
  · intro hU
    have hmid : (hedge_result (normSide s) ml stake d0 hl dh lt fl).middle_note
        = if hl < ml then middleMsg hl ml
          else "No classic middle (hedge line not below your under line)." := by
      simp only [hedge_result, hU, eq_self_iff_true, if_true]
    rw [hmid]
    by_cases hlt : hl < ml
    · rw [if_pos hlt]
      exact ⟨⟨fun _ => hlt, fun _ => rfl⟩, fun hc => absurd hlt hc⟩
    · rw [if_neg hlt]
      exact ⟨⟨fun hEq => absurd hEq.symm (middleMsg_ne_noMiddle hl ml _ (by decide)),
        fun hc => absurd hc hlt⟩, fun _ => rfl⟩
  · intro hO
    have hmid : (hedge_result (normSide s) ml stake d0 hl dh lt fl).middle_note
        = if ml < hl then middleMsg ml hl
          else "No classic middle (hedge line not above your over line)." := by
      simp only [hedge_result, hO, if_neg (by decide : ¬("OVER" : String) = "UNDER")]
    rw [hmid]
    by_cases hlt : ml < hl
    · rw [if_pos hlt]
      exact ⟨⟨fun _ => hlt, fun _ => rfl⟩, fun hc => absurd hlt hc⟩
    · rw [if_neg hlt]
      exact ⟨⟨fun hEq => absurd hEq.symm (middleMsg_ne_noMiddle ml hl _ (by decide)),
        fun hc => absurd hc hlt⟩, fun _ => rfl⟩

/-- C7 witness: UNDER at line 232 with hedge line 230 reports the middle
[230, 232]. -/
theorem C7_witness :
    ((⟨"Hold (good CLV)", 100,
        "Middle range (both win): 230.0 to 232.0 (excluding pushes).",
        mkRat (-100) 11, mkRat 2000 11⟩ : HedgeResult).middle_note = middleMsg 230 232
      ↔ (230 : Rat) < 232)
    ∧ (¬(230 : Rat) < 232 →
        (⟨"Hold (good CLV)", 100,
            "Middle range (both win): 230.0 to 232.0 (excluding pushes).",
            mkRat (-100) 11, mkRat 2000 11⟩ : HedgeResult).middle_note
          = "No classic middle (hedge line not below your under line).") :=
  (C7_middle_detection "UNDER" 232 100 (-110) 230 (-110) 224 [] _ (by decide)).1 (by decide)

/-- A list stays a starting segment when the larger list is extended. -/
theorem listPre_append_of_pre : (p a m : List Char) → listPre p a = true → listPre p (a ++ m) = true
  | [], _, _, _ => rfl
  | _ :: _, [], _, h => by cases h
  | c :: cs, b :: bs, m, h => by
    simp only [listPre, Bool.and_eq_true] at h ⊢
    exact ⟨h.1, listPre_append_of_pre cs bs m h.2⟩

/-- A starting segment of a string still starts any extension of it. -/
theorem strStarts_append_of_starts (a x p : String) (h : strStarts a p = true) :
    strStarts (a ++ x) p = true := by
  rw [strStarts, strData_append]
  exact listPre_append_of_pre _ _ _ h

/-- An extension of `a` differs from `b` when the first `n` characters of
`a` already disagree with `b`. -/
theorem strNe_take (n : Nat) (a x b : String) (l : List Char)
    (ha : a.data.take n = l) (hl : l.length = n) (hb : ¬b.data.take n = l) :
    a ++ x ≠ b := by
  intro h
  apply hb
  have hlen := congrArg List.length ha
  rw [List.length_take, hl] at hlen
  have hle : n ≤ a.data.length := by omega
  rw [← h, strData_append, List.take_append_of_le_length hle, ha]

theorem flagRank_high_ft (x : String) : flagRank ("HIGH_FT_RATE(" ++ x) = 2 := by
  rw [flagRank,
    if_neg (by
      simp [strNe_take 1 "HIGH_FT_RATE(" x "EARLY_BONUS_HIGH_RISK" ['H'] (by decide) (by decide) (by decide),
        strNe_take 1 "HIGH_FT_RATE(" x "BONUS/WHISTLES_ON" ['H'] (by decide) (by decide) (by decide)]),
    if_neg (strNe_take 1 "HIGH_FT_RATE(" x "FT_PARADE" ['H'] (by decide) (by decide) (by decide)),
    if_pos (Or.inl (strStarts_append_of_starts _ _ _ (by decide)))]

theorem flagRank_elev_ft (x : String) : flagRank ("ELEVATED_FT_RATE(" ++ x) = 2 := by
  rw [flagRank,
    if_neg (by
      simp [strNe_take 2 "ELEVATED_FT_RATE(" x "EARLY_BONUS_HIGH_RISK" ['E', 'L'] (by decide) (by decide) (by decide),
        strNe_take 1 "ELEVATED_FT_RATE(" x "BONUS/WHISTLES_ON" ['E'] (by decide) (by decide) (by decide)]),
    if_neg (strNe_take 1 "ELEVATED_FT_RATE(" x "FT_PARADE" ['E'] (by decide) (by decide) (by decide)),
    if_pos (Or.inr (Or.inl (strStarts_append_of_starts _ _ _ (by decide))))]

theorem flagRank_ok_ft (x : String) : flagRank ("FT_RATE_OK(" ++ x) = 2 := by
  rw [flagRank,
    if_neg (by
      simp [strNe_take 1 "FT_RATE_OK(" x "EARLY_BONUS_HIGH_RISK" ['F'] (by decide) (by decide) (by decide),
        strNe_take 1 "FT_RATE_OK(" x "BONUS/WHISTLES_ON" ['F'] (by decide) (by decide) (by decide)]),
    if_neg (strNe_take 4 "FT_RATE_OK(" x "FT_PARADE" ['F', 'T', '_', 'R'] (by decide) (by decide) (by decide)),
    if_pos (Or.inr (Or.inr (strStarts_append_of_starts _ _ _ (by decide))))]

theorem flagRank_3p_hot (x : String) : flagRank ("3P_HOT(" ++ x) = 3 := by
  rw [flagRank,
    if_neg (by
      simp [strNe_take 1 "3P_HOT(" x "EARLY_BONUS_HIGH_RISK" ['3'] (by decide) (by decide) (by decide),
        strNe_take 1 "3P_HOT(" x "BONUS/WHISTLES_ON" ['3'] (by decide) (by decide) (by decide)]),
    if_neg (strNe_take 1 "3P_HOT(" x "FT_PARADE" ['3'] (by decide) (by decide) (by decide)),
    if_neg (by
      simp [strStarts_false_of_head ("3P_HOT(" ++ x) "HIGH_FT_RATE(" '3' 'H'
          (strHead_append _ _ _ (by decide)) (by decide) (by decide),
        strStarts_false_of_head ("3P_HOT(" ++ x) "ELEVATED_FT_RATE(" '3' 'E'
          (strHead_append _ _ _ (by decide)) (by decide) (by decide),
        strStarts_false_of_head ("3P_HOT(" ++ x) "FT_RATE_OK(" '3' 'F'
          (strHead_append _ _ _ (by decide)) (by decide) (by decide)]),
    if_pos (strStarts_append_of_starts _ _ _ (by decide))]

theorem flagRank_3p_cold (x : String) : flagRank ("3P_COLD(" ++ x) = 3 := by
  rw [flagRank,
    if_neg (by
      simp [strNe_take 1 "3P_COLD(" x "EARLY_BONUS_HIGH_RISK" ['3'] (by decide) (by decide) (by decide),
        strNe_take 1 "3P_COLD(" x "BONUS/WHISTLES_ON" ['3'] (by decide) (by decide) (by decide)]),
    if_neg (strNe_take 1 "3P_COLD(" x "FT_PARADE" ['3'] (by decide) (by decide) (by decide)),
    if_neg (by
      simp [strStarts_false_of_head ("3P_COLD(" ++ x) "HIGH_FT_RATE(" '3' 'H'
          (strHead_append _ _ _ (by decide)) (by decide) (by decide),
        strStarts_false_of_head ("3P_COLD(" ++ x) "ELEVATED_FT_RATE(" '3' 'E'
          (strHead_append _ _ _ (by decide)) (by decide) (by decide),
        strStarts_false_of_head ("3P_COLD(" ++ x) "FT_RATE_OK(" '3' 'F'
          (strHead_append _ _ _ (by decide)) (by decide) (by decide)]),
    if_pos (strStarts_append_of_starts _ _ _ (by decide))]

theorem flagRank_3p_normal (x : String) : flagRank ("3P_NORMAL(" ++ x) = 3 := by
  rw [flagRank,
    if_neg (by
      simp [strNe_take 1 "3P_NORMAL(" x "EARLY_BONUS_HIGH_RISK" ['3'] (by decide) (by decide) (by decide),
        strNe_take 1 "3P_NORMAL(" x "BONUS/WHISTLES_ON" ['3'] (by decide) (by decide) (by decide)]),
    if_neg (strNe_take 1 "3P_NORMAL(" x "FT_PARADE" ['3'] (by decide) (by decide) (by decide)),
    if_neg (by
      simp [strStarts_false_of_head ("3P_NORMAL(" ++ x) "HIGH_FT_RATE(" '3' 'H'
          (strHead_append _ _ _ (by decide)) (by decide) (by decide),
        strStarts_false_of_head ("3P_NORMAL(" ++ x) "ELEVATED_FT_RATE(" '3' 'E'
          (strHead_append _ _ _ (by decide)) (by decide) (by decide),
        strStarts_false_of_head ("3P_NORMAL(" ++ x) "FT_RATE_OK(" '3' 'F'
          (strHead_append _ _ _ (by decide)) (by decide) (by decide)]),
    if_pos (strStarts_append_of_starts _ _ _ (by decide))]

theorem flagRank_ot (x : String) : flagRank ("OT_ON(" ++ x) = 4 := by
  rw [flagRank,
    if_neg (by
      simp [strNe_take 1 "OT_ON(" x "EARLY_BONUS_HIGH_RISK" ['O'] (by decide) (by decide) (by decide),
        strNe_take 1 "OT_ON(" x "BONUS/WHISTLES_ON" ['O'] (by decide) (by decide) (by decide)]),
    if_neg (strNe_take 1 "OT_ON(" x "FT_PARADE" ['O'] (by decide) (by decide) (by decide)),
    if_neg (by
      simp [strStarts_false_of_head ("OT_ON(" ++ x) "HIGH_FT_RATE(" 'O' 'H'
          (strHead_append _ _ _ (by decide)) (by decide) (by decide),
        strStarts_false_of_head ("OT_ON(" ++ x) "ELEVATED_FT_RATE(" 'O' 'E'
          (strHead_append _ _ _ (by decide)) (by decide) (by decide),
        strStarts_false_of_head ("OT_ON(" ++ x) "FT_RATE_OK(" 'O' 'F'
          (strHead_append _ _ _ (by decide)) (by decide) (by decide)]),
    if_neg (by
      simp [strStarts_false_of_head ("OT_ON(" ++ x) "3P_" 'O' '3'
          (strHead_append _ _ _ (by decide)) (by decide) (by decide)]),
    if_pos (strStarts_append_of_starts _ _ _ (by decide))]

theorem ftCategory_high (x : String) : ftCategory ("HIGH_FT_RATE(" ++ x) = true := by
  rw [ftCategory, strStarts_append_of_starts _ _ _ (by decide)]
  rfl

theorem ftCategory_elev (x : String) : ftCategory ("ELEVATED_FT_RATE(" ++ x) = true := by
  rw [ftCategory, strStarts_append_of_starts "ELEVATED_FT_RATE(" x "ELEVATED_FT_RATE(" (by decide)]
  simp

theorem ftCategory_okflag (x : String) : ftCategory ("FT_RATE_OK(" ++ x) = true := by
  rw [ftCategory, strStarts_append_of_starts "FT_RATE_OK(" x "FT_RATE_OK(" (by decide)]
  simp

theorem ftCategory_3p_hot (x : String) : ftCategory ("3P_HOT(" ++ x) = false := by
  rw [ftCategory,
    strStarts_false_of_head _ "HIGH_FT_RATE(" '3' 'H' (strHead_append _ _ _ (by decide)) (by decide) (by decide),
    strStarts_false_of_head _ "ELEVATED_FT_RATE(" '3' 'E' (strHead_append _ _ _ (by decide)) (by decide) (by decide),
    strStarts_false_of_head _ "FT_RATE_OK(" '3' 'F' (strHead_append _ _ _ (by decide)) (by decide) (by decide)]
  rfl

theorem ftCategory_3p_cold (x : String) : ftCategory ("3P_COLD(" ++ x) = false := by
  rw [ftCategory,
    strStarts_false_of_head _ "HIGH_FT_RATE(" '3' 'H' (strHead_append _ _ _ (by decide)) (by decide) (by decide),
    strStarts_false_of_head _ "ELEVATED_FT_RATE(" '3' 'E' (strHead_append _ _ _ (by decide)) (by decide) (by decide),
    strStarts_false_of_head _ "FT_RATE_OK(" '3' 'F' (strHead_append _ _ _ (by decide)) (by decide) (by decide)]
  rfl

theorem ftCategory_3p_normal (x : String) : ftCategory ("3P_NORMAL(" ++ x) = false := by
  rw [ftCategory,
    strStarts_false_of_head _ "HIGH_FT_RATE(" '3' 'H' (strHead_append _ _ _ (by decide)) (by decide) (by decide),
    strStarts_false_of_head _ "ELEVATED_FT_RATE(" '3' 'E' (strHead_append _ _ _ (by decide)) (by decide) (by decide),
    strStarts_false_of_head _ "FT_RATE_OK(" '3' 'F' (strHead_append _ _ _ (by decide)) (by decide) (by decide)]
  rfl

theorem ftCategory_ot (x : String) : ftCategory ("OT_ON(" ++ x) = false := by
  rw [ftCategory,
    strStarts_false_of_head _ "HIGH_FT_RATE(" 'O' 'H' (strHead_append _ _ _ (by decide)) (by decide) (by decide),
    strStarts_false_of_head _ "ELEVATED_FT_RATE(" 'O' 'E' (strHead_append _ _ _ (by decide)) (by decide) (by decide),
    strStarts_false_of_head _ "FT_RATE_OK(" 'O' 'F' (strHead_append _ _ _ (by decide)) (by decide) (by decide)]
  rfl

/-- Any relation holds pairwise on a list with at most one element. -/
theorem pairwise_of_short {α : Type} (R : α → α → Prop) (l : List α) (h : l.length ≤ 1) :
    List.Pairwise R l := by
  rcases l with _ | ⟨a, l2⟩
  · exact List.Pairwise.nil
  · rcases l2 with _ | ⟨b, t⟩
    · exact List.pairwise_singleton R a
    · simp at h

/-- Concatenating five lists of at most one element carrying the ranks 0 to
4 yields a strictly increasing list. -/
theorem pairwise_lt_ranked (l0 l1 l2 l3 l4 : List Nat)
    (h0 : ∀ x ∈ l0, x = 0) (e0 : l0.length ≤ 1)
    (h1 : ∀ x ∈ l1, x = 1) (e1 : l1.length ≤ 1)
    (h2 : ∀ x ∈ l2, x = 2) (e2 : l2.length ≤ 1)
    (h3 : ∀ x ∈ l3, x = 3) (e3 : l3.length ≤ 1)
    (h4 : ∀ x ∈ l4, x = 4) (e4 : l4.length ≤ 1) :
    List.Pairwise (· < ·) (l0 ++ (l1 ++ (l2 ++ (l3 ++ l4)))) := by
  rw [List.pairwise_append]
  refine ⟨pairwise_of_short _ _ e0, ?_, ?_⟩
  · rw [List.pairwise_append]
    refine ⟨pairwise_of_short _ _ e1, ?_, ?_⟩
    · rw [List.pairwise_append]
      refine ⟨pairwise_of_short _ _ e2, ?_, ?_⟩
      · rw [List.pairwise_append]
        refine ⟨pairwise_of_short _ _ e3, pairwise_of_short _ _ e4, ?_⟩
        intro a ha b hb
        rw [h3 a ha, h4 b hb]
        omega
      · intro a ha b hb
        rw [List.mem_append] at hb
        rw [h2 a ha]
        rcases hb with hb | hb
        · rw [h3 b hb]
          omega
        · rw [h4 b hb]
          omega
    · intro a ha b hb
      rw [List.mem_append] at hb
      rw [h1 a ha]
      rcases hb with hb | hb
      · rw [h2 b hb]
        omega
      · rw [List.mem_append] at hb
        rcases hb with hb | hb
        · rw [h3 b hb]
          omega
        · rw [h4 b hb]
          omega
  · intro a ha b hb
    rw [List.mem_append] at hb
    rw [h0 a ha]
    rcases hb with hb | hb
    · rw [h1 b hb]
      omega
    · rw [List.mem_append] at hb
      rcases hb with hb | hb
      · rw [h2 b hb]
        omega
      · rw [List.mem_append] at hb
        rcases hb with hb | hb
        · rw [h3 b hb]
          omega
        · rw [h4 b hb]
          omega

/-- The bonus part: rank 0 flags, at most one, none in the FT category. -/
theorem bonusFlags_spec (quarter : Int) (tleft : Rat) (bonus : Bool) :
    (∀ f ∈ bonusFlags quarter tleft bonus, flagRank f = 0)
    ∧ (bonusFlags quarter tleft bonus).length ≤ 1
    ∧ (bonusFlags quarter tleft bonus).countP ftCategory = 0 := by
  rw [bonusFlags]
  split_ifs
  · exact ⟨fun f hf => by rw [List.mem_singleton] at hf; subst hf; decide, by decide, by decide⟩
  · exact ⟨fun f hf => by rw [List.mem_singleton] at hf; subst hf; decide, by decide, by decide⟩
  · exact ⟨fun f hf => absurd hf (List.not_mem_nil f), by decide, by decide⟩

/-- The FT-parade part: rank 1, at most one, not in the FT-rate category. -/
theorem ftParadeFlags_spec (fp : Bool) :
    (∀ f ∈ ftParadeFlags fp, flagRank f = 1)
    ∧ (ftParadeFlags fp).length ≤ 1
    ∧ (ftParadeFlags fp).countP ftCategory = 0 := by
  rw [ftParadeFlags]
  split_ifs
  · exact ⟨fun f hf => by rw [List.mem_singleton] at hf; subst hf; decide, by decide, by decide⟩
  · exact ⟨fun f hf => absurd hf (List.not_mem_nil f), by decide, by decide⟩

/-- The FT-rate part: rank 2 flags, at most one, and exactly one FT-category
flag when the attempts are supplied. -/
theorem ftaFlags_spec (fta : Option Rat) (elapsed : Rat) :
    (∀ f ∈ ftaFlags fta elapsed, flagRank f = 2)
    ∧ (ftaFlags fta elapsed).length ≤ 1
    ∧ (∀ v, fta = some v → (ftaFlags fta elapsed).countP ftCategory = 1) := by
  rcases fta with _ | v
  · exact ⟨fun f hf => absurd hf (List.not_mem_nil f), by simp [ftaFlags], fun v hv => by cases hv⟩
  · refine ⟨?_, ?_, ?_⟩
    · intro f hf
      rw [ftaFlags] at hf
      split_ifs at hf <;> rw [List.mem_singleton] at hf <;> subst hf
      · exact flagRank_high_ft _
      · exact flagRank_elev_ft _
      · exact flagRank_ok_ft _
    · rw [ftaFlags]
      split_ifs <;> simp
    · intro w hw
      rw [ftaFlags]
      split_ifs
      · simp [List.countP_cons, ftCategory_high]
      · simp [List.countP_cons, ftCategory_elev]
      · simp [List.countP_cons, ftCategory_okflag]

/-- The three-point part: rank 3 flags, at most one, none in the FT
category. -/
theorem threePtFlags_spec (tpp : Option Rat) :
    (∀ f ∈ threePtFlags tpp, flagRank f = 3)
    ∧ (threePtFlags tpp).length ≤ 1
    ∧ (threePtFlags tpp).countP ftCategory = 0 := by
  rcases tpp with _ | p
  · exact ⟨fun f hf => absurd hf (List.not_mem_nil f), by decide, by decide⟩
  · refine ⟨?_, ?_, ?_⟩
    · intro f hf
      rw [threePtFlags] at hf
      split_ifs at hf <;> rw [List.mem_singleton] at hf <;> subst hf
      · exact flagRank_3p_hot _
      · exact flagRank_3p_cold _
      · exact flagRank_3p_normal _
    · rw [threePtFlags]
      split_ifs <;> simp
    · rw [threePtFlags]
      split_ifs
      · simp [List.countP_cons, ftCategory_3p_hot]
      · simp [List.countP_cons, ftCategory_3p_cold]
      · simp [List.countP_cons, ftCategory_3p_normal]

/-- The overtime part: rank 4 flags, at most one, none in the FT category. -/
theorem otFlags_spec (ot : Bool) (op oe : Rat) :
    (∀ f ∈ otFlags ot op oe, flagRank f = 4)
    ∧ (otFlags ot op oe).length ≤ 1
    ∧ (otFlags ot op oe).countP ftCategory = 0 := by
  rw [otFlags]
  split_ifs
  · refine ⟨?_, by simp, ?_⟩
    · intro f hf
      rw [List.mem_singleton] at hf
      subst hf
      exact flagRank_ot _
    · simp [List.countP_cons, ftCategory_ot]
  · exact ⟨fun f hf => absurd hf (List.not_mem_nil f), by decide, by decide⟩

/-- C8: the flag list is order-stable (the category ranks of its flags are
strictly increasing along the fixed detection sequence) and never holds two
flags of one category; when free-throw attempts are supplied there is
exactly one FT-category flag, classified by the rate thresholds 1.10 and
0.85 on attempts per elapsed minute. -/
theorem C8_flag_invariants (quarter : Int) (tleft elapsed : Rat) (bonus fp : Bool)
    (fta tpp : Option Rat) (ot : Bool) (op oe : Rat) (he : 0 < elapsed) :
    List.Pairwise (· < ·)
      ((flags_list quarter tleft bonus fp fta elapsed tpp ot op oe).map flagRank)
    ∧ ¬("EARLY_BONUS_HIGH_RISK" ∈ flags_list quarter tleft bonus fp fta elapsed tpp ot op oe
        ∧ "BONUS/WHISTLES_ON" ∈ flags_list quarter tleft bonus fp fta elapsed tpp ot op oe)
    ∧ (∀ v, fta = some v →
        ((flags_list quarter tleft bonus fp fta elapsed tpp ot op oe).countP ftCategory = 1
        ∧ ((1.10 : Rat) ≤ v / elapsed →
            "HIGH_FT_RATE(" ++ (fmtFixed (v / elapsed) 2 ++ "/min)")
              ∈ flags_list quarter tleft bonus fp fta elapsed tpp ot op oe)
        ∧ (v / elapsed < 1.10 → (0.85 : Rat) ≤ v / elapsed →
            "ELEVATED_FT_RATE(" ++ (fmtFixed (v / elapsed) 2 ++ "/min)")
              ∈ flags_list quarter tleft bonus fp fta elapsed tpp ot op oe)
        ∧ (v / elapsed < 0.85 →
            "FT_RATE_OK(" ++ (fmtFixed (v / elapsed) 2 ++ "/min)")
              ∈ flags_list quarter tleft bonus fp fta elapsed tpp ot op oe))) := by
  have hpair : List.Pairwise (· < ·)
      ((flags_list quarter tleft bonus fp fta elapsed tpp ot op oe).map flagRank) := by
    rw [flags_list, List.map_append, List.map_append, List.map_append, List.map_append]
    apply pairwise_lt_ranked
    · intro x hx
      rw [List.mem_map] at hx
      obtain ⟨f, hf, rfl⟩ := hx
      exact (bonusFlags_spec quarter tleft bonus).1 f hf
    · simpa using (bonusFlags_spec quarter tleft bonus).2.1
    · intro x hx
      rw [List.mem_map] at hx
      obtain ⟨f, hf, rfl⟩ := hx
      exact (ftParadeFlags_spec fp).1 f hf
    · simpa using (ftParadeFlags_spec fp).2.1
    · intro x hx
      rw [List.mem_map] at hx
      obtain ⟨f, hf, rfl⟩ := hx
      exact (ftaFlags_spec fta elapsed).1 f hf
    · simpa using (ftaFlags_spec fta elapsed).2.1
    · intro x hx
      rw [List.mem_map] at hx
      obtain ⟨f, hf, rfl⟩ := hx
      exact (threePtFlags_spec tpp).1 f hf
    · simpa using (threePtFlags_spec tpp).2.1
    · intro x hx
      rw [List.mem_map] at hx
      obtain ⟨f, hf, rfl⟩ := hx
      exact (otFlags_spec ot op oe).1 f hf
    · simpa using (otFlags_spec ot op oe).2.1
  refine ⟨hpair, ?_, ?_⟩
  · rintro ⟨hE, hB⟩
    have hnd : ((flags_list quarter tleft bonus fp fta elapsed tpp ot op oe).map flagRank).Nodup :=
      hpair.imp (fun hlt => Nat.ne_of_lt hlt)
    have heq := List.inj_on_of_nodup_map hnd hE hB (by decide)
    exact absurd heq (by decide)
  · intro v hv
    subst hv
    have h110 : (mkRat 110 100 : Rat) = 1.10 := by norm_num [mkRat_as_div]
    have h85 : (mkRat 85 100 : Rat) = 0.85 := by norm_num [mkRat_as_div]
    refine ⟨?_, ?_, ?_, ?_⟩
    · rw [flags_list, List.countP_append, List.countP_append, List.countP_append,
        List.countP_append, (bonusFlags_spec quarter tleft bonus).2.2,
        (ftParadeFlags_spec fp).2.2, (ftaFlags_spec (some v) elapsed).2.2 v rfl,
        (threePtFlags_spec tpp).2.2, (otFlags_spec ot op oe).2.2]
    · intro hge
      rw [flags_list]
      refine List.mem_append.mpr (Or.inr (List.mem_append.mpr (Or.inr
        (List.mem_append.mpr (Or.inl ?_)))))
      simp only [ftaFlags]
      rw [if_pos (by rw [h110, rdiv_eq]; exact hge), rdiv_eq]
      exact List.mem_singleton.mpr rfl
    · intro hlt hge
      rw [flags_list]
      refine List.mem_append.mpr (Or.inr (List.mem_append.mpr (Or.inr
        (List.mem_append.mpr (Or.inl ?_)))))
      simp only [ftaFlags]
      rw [if_neg (by rw [h110, rdiv_eq]; exact not_le.mpr hlt),
        if_pos (by rw [h85, rdiv_eq]; exact hge), rdiv_eq]
      exact List.mem_singleton.mpr rfl
    · intro hlt
      rw [flags_list]
      refine List.mem_append.mpr (Or.inr (List.mem_append.mpr (Or.inr
        (List.mem_append.mpr (Or.inl ?_)))))
      simp only [ftaFlags]
      rw [if_neg (by rw [h110, rdiv_eq]; exact not_le.mpr (lt_trans hlt (by norm_num))),
        if_neg (by rw [h85, rdiv_eq]; exact not_le.mpr hlt), rdiv_eq]
      exact List.mem_singleton.mpr rfl

/-- C8 witness: a run with every flag family active: bonus (late clock),
FT parade, a high FT rate of 1.25 per minute, a hot three-point rate, and
the overtime adjustment. -/
theorem C8_witness :
    List.Pairwise (· < ·)
      ((flags_list 2 5 true true (some 30) 24 (some (mkRat 1 2)) true 6 10).map flagRank)
    ∧ (flags_list 2 5 true true (some 30) 24 (some (mkRat 1 2)) true 6 10).countP ftCategory = 1
    ∧ "HIGH_FT_RATE(" ++ (fmtFixed ((30 : Rat) / 24) 2 ++ "/min)")
        ∈ flags_list 2 5 true true (some 30) 24 (some (mkRat 1 2)) true 6 10 := by
  have h := C8_flag_invariants 2 5 24 true true (some 30) (some (mkRat 1 2)) true 6 10 (by decide)
  exact ⟨h.1, (h.2.2 30 rfl).1, (h.2.2 30 rfl).2.1 (by norm_num)⟩

end NbaCalc
